import Mathlib

/-!
Shallow embedding of `src/conx/konx.py` (classes `Network` and `Layer` plus
the module-level utility functions).  Python numeric scalars are modelled by
`ℚ` (dataset values, dropout rates) and `Int`/`Nat` (shapes, sizes, indices);
numpy arrays by lists; a 2-D dataset array by a list of rows.  A Python
method that mutates `self` and may `raise` is embedded as a function from the
old state to `state × Option String`: the returned state carries every
mutation performed before the `raise` point, and `some msg` marks the raised
exception.  `Layer.__init__`, which either produces a fresh object or raises,
is embedded as `Except String Layer`.  Layer-to-layer references are embedded
as indices into the network's layer list.
-/

namespace Konx

/-- A Python value that is an `int` or a tuple of `int`s, as accepted for the
`shape`/`vshape` arguments of `Layer.__init__`. -/
inductive PyShape where
  | int (n : Int)
  | tup (t : List Int)
deriving DecidableEq, Repr

/-- A Python value acceptable as an activation: a string naming a function, or
an opaque callable (identified by a tag; the code never calls it). -/
inductive PyActVal where
  | str (s : String)
  | call (id : Nat)
deriving DecidableEq, Repr

/-- `Layer.ACTIVATION_FUNCTIONS = ('relu', 'sigmoid', 'linear', 'softmax')`. -/
def ACTIVATION_FUNCTIONS : List String := ["relu", "sigmoid", "linear", "softmax"]

/-- `valid_shape(x)`: `x` is a positive `int`, or a tuple of length > 1 all of
whose entries are positive `int`s. -/
def valid_shape : PyShape → Bool
  | .int n => decide (0 < n)
  | .tup t => decide (1 < t.length) && t.all (fun n => decide (0 < n))

/-- `valid_vshape(x)`: a valid shape that is a single `int` or a 2-tuple. -/
def valid_vshape (x : PyShape) : Bool :=
  valid_shape x && (match x with | .int _ => true | .tup t => decide (t.length = 2))

/-- `reduce(operator.mul, t)` for a non-empty tuple `t`; `1` on the empty
tuple (the code only applies it to tuples of length > 1). -/
def reduceMul : List Int → Int
  | [] => 1
  | a :: rest => rest.foldl (· * ·) a

/-- Product of the entries of a `PyShape` (an `int` counts as itself). -/
def prodPyShape : PyShape → Int
  | .int n => n
  | .tup t => reduceMul t

/-- The embedded `Layer` object.  `incoming_connections` and
`outgoing_connections` hold indices into the owning network's layer list. -/
structure Layer where
  name : String
  shape : List Int
  size : Int
  vshape : PyShape
  activation : PyActVal
  dropout : ℚ
  incoming_connections : List Nat
  outgoing_connections : List Nat
deriving DecidableEq, Repr

/-- The keyword arguments (`**params`) recognized by `Layer.__init__`.  The
outer `Option` is key presence in `params`; for `activation` and `dropout`
the inner `Option` distinguishes an explicit Python `None` from a value. -/
structure LayerParams where
  vshape : Option PyShape := none
  activation : Option (Option PyActVal) := none
  dropout : Option (Option ℚ) := none

/-- The `vshape` block of `Layer.__init__`: an explicit `vshape` must pass
`valid_vshape` and its product must equal `size`; otherwise the default is
`(size,)` when `shape` has more than 2 dimensions, else `shape` itself. -/
def computeVShape (size : Int) (shp : List Int) (pv : Option PyShape) :
    Except String PyShape :=
  match pv with
  | some vs =>
    if ¬ valid_vshape vs then .error "bad vshape"
    else if (match vs with
             | .int v => decide (v ≠ size)
             | .tup t => decide (t.headD 0 * t.getD 1 0 ≠ size)) then
      .error "vshape incompatible with layer"
    else .ok vs
  | none => if shp.length > 2 then .ok (.tup [size]) else .ok (.tup shp)

/-- The `activation` block of `Layer.__init__`: absent or `None` means
`'linear'`; a callable is accepted as-is; a string must be one of
`ACTIVATION_FUNCTIONS`. -/
def computeActivation : Option (Option PyActVal) → Except String PyActVal
  | none => .ok (.str "linear")
  | some pa =>
    match (match pa with | none => PyActVal.str "linear" | some v => v) with
    | .call id => .ok (.call id)
    | .str s =>
      if s ∈ ACTIVATION_FUNCTIONS then .ok (.str s)
      else .error "unknown activation function"

/-- The `dropout` block of `Layer.__init__`: absent or `None` means `0`; a
numeric value must lie in `[0, 1]`. -/
def computeDropout : Option (Option ℚ) → Except String ℚ
  | none => .ok 0
  | some pd =>
    let d := pd.getD 0
    if 0 ≤ d ∧ d ≤ 1 then .ok d else .error "bad dropout rate"

/-- The stored `self.shape`: `(shape,)` for an `int`, the tuple itself
otherwise. -/
def shapeList : PyShape → List Int
  | .int n => [n]
  | .tup t => t

/-- The stored `self.size`: the `int` itself, or
`reduce(operator.mul, shape)` for a tuple. -/
def shapeSize : PyShape → Int
  | .int n => n
  | .tup t => reduceMul t

/-- `Layer.__init__(name, shape, **params)`.  A single `int` shape `n` is
stored as the tuple `(n,)` with `size = n`; a tuple is stored as given with
`size = reduce(operator.mul, shape)`.  Connection lists start empty. -/
def layerInit (name : String) (shape : PyShape) (p : LayerParams) :
    Except String Layer :=
  if ¬ 0 < name.length then .error ("bad layer name: " ++ name)
  else if ¬ valid_shape shape then .error "bad shape"
  else
    let shp : List Int := shapeList shape
    let size : Int := shapeSize shape
    match computeVShape size shp p.vshape with
    | .error e => .error e
    | .ok vs =>
      match computeActivation p.activation with
      | .error e => .error e
      | .ok act =>
        match computeDropout p.dropout with
        | .error e => .error e
        | .ok dr =>
          .ok { name := name, shape := shp, size := size, vshape := vs,
                activation := act, dropout := dr,
                incoming_connections := [], outgoing_connections := [] }

/-- `Layer.kind()`: derived from the connection-list cardinalities. -/
def Layer.kind (l : Layer) : String :=
  if l.incoming_connections.length = 0 ∧ l.outgoing_connections.length = 0 then
    "unconnected"
  else if 0 < l.incoming_connections.length ∧ 0 < l.outgoing_connections.length then
    "hidden"
  else if 0 < l.incoming_connections.length then "output"
  else "input"

/-- A primitive keras layer descriptor produced by `make_keras_layers`:
`Dense(size, activation=...)` or `Dropout(rate)`. -/
inductive KerasLayer where
  | dense (size : Int) (activation : PyActVal)
  | dropout (rate : ℚ)
deriving DecidableEq, Repr

/-- `Layer.make_keras_layers()`: no dense descriptor for an input-kind layer,
else one `Dense(size, activation)`; a `Dropout(dropout)` is appended whenever
`dropout > 0`. -/
def Layer.make_keras_layers (l : Layer) : List KerasLayer :=
  let klayer : List KerasLayer :=
    if l.kind = "input" then [] else [.dense l.size l.activation]
  if 0 < l.dropout then klayer ++ [.dropout l.dropout] else klayer

/-- The embedded `Network` graph part: the tuple of layers fixed at
construction.  `layer_dict` is recomputed from it by `layerIdx`. -/
structure Network where
  layers : List Layer
deriving DecidableEq, Repr

/-- Index of the layer `layer_dict[name]` refers to: `layer_dict` is a dict
comprehension over `layers`, so for a duplicated name the last layer wins. -/
def Network.layerIdx (net : Network) (name : String) : Option Nat :=
  match net.layers.reverse.findIdx? (fun l => l.name = name) with
  | none => none
  | some k => some (net.layers.length - 1 - k)

/-- `Network.__getitem__(layer_name)`: returns `None` (here `none`) when the
name is not in `layer_dict`, else the layer. -/
def Network.getitem (net : Network) (name : String) : Option Layer :=
  match net.layerIdx name with
  | none => none
  | some i => net.layers.get? i

/-- Replace the layer at index `i` (no-op when out of range). -/
def modifyIdx (ls : List Layer) (i : Nat) (f : Layer → Layer) : List Layer :=
  match ls.get? i with
  | none => ls
  | some x => ls.set i (f x)

/-- `Network.connect(from_layer_name, to_layer_name)`: both names are checked
against `layer_dict` before any mutation; then `to` is appended to `from`'s
outgoing list and `from` to `to`'s incoming list. -/
def Network.connect (net : Network) (from_name to_name : String) :
    Network × Option String :=
  match net.layerIdx from_name with
  | none => (net, some ("unknown layer: " ++ from_name))
  | some fi =>
    match net.layerIdx to_name with
    | none => (net, some ("unknown layer: " ++ to_name))
    | some ti =>
      let ls1 := modifyIdx net.layers fi
        (fun l => { l with outgoing_connections := l.outgoing_connections ++ [ti] })
      let ls2 := modifyIdx ls1 ti
        (fun l => { l with incoming_connections := l.incoming_connections ++ [fi] })
      ({ layers := ls2 }, none)

/-- `np.min` of a 1-D array (`0` on the empty array, on which numpy would
raise; the specified call sites guarantee non-emptiness). -/
def listMin : List ℚ → ℚ
  | [] => 0
  | x :: xs => xs.foldl min x

/-- `np.max` of a 1-D array (`0` on the empty array). -/
def listMax : List ℚ → ℚ
  | [] => 0
  | x :: xs => xs.foldl max x

/-- `np.min` over a 2-D array: minimum over all scalar entries. -/
def listMin2 (a : List (List ℚ)) : ℚ := listMin a.flatten

/-- `np.max` over a 2-D array: maximum over all scalar entries. -/
def listMax2 (a : List (List ℚ)) : ℚ := listMax a.flatten

/-- `rescale_numpy_array(a, old_range, new_range)`:
`new_min + (a - old_min) * new_delta / old_delta`, elementwise. -/
def rescale_numpy_array (a : List (List ℚ)) (old_range new_range : ℚ × ℚ) :
    List (List ℚ) :=
  let old_delta := old_range.2 - old_range.1
  let new_delta := new_range.2 - new_range.1
  a.map (fun row => row.map (fun x =>
    new_range.1 + (x - old_range.1) * new_delta / old_delta))

/-- The dataset-related attributes of a `Network` object.  Before
`load_dataset` these Python attributes are absent; an arbitrary state stands
for that, with `dataset_size = 0` playing the "nothing loaded" role the code
itself tests for. -/
structure NetState where
  inputs : List (List ℚ)
  labels : List (List ℚ)
  dataset_size : Nat
  inputs_range : ℚ × ℚ
  split : Nat
  train_inputs : List (List ℚ)
  test_inputs : List (List ℚ)
  train_labels : List (List ℚ)
  test_labels : List (List ℚ)
deriving DecidableEq, Repr

/-- The `split` argument of `split_dataset`: a Python `float` or `int`. -/
inductive SplitArg where
  | flt (q : ℚ)
  | int (n : Int)
deriving DecidableEq, Repr

/-- The slicing tail of `split_dataset`: store the boundary and recompute the
four prefix/suffix slices. -/
def applySplit (st : NetState) (s : Nat) : NetState × Option String :=
  ({ st with
     split := s
     train_inputs := st.inputs.take s
     test_inputs := st.inputs.drop s
     train_labels := st.labels.take s
     test_labels := st.labels.drop s }, none)

/-- `Network.split_dataset(split)`: a float must lie in `[0,1]` and is scaled
by `dataset_size` then truncated by `int()` (equal to the floor here since the
product is nonnegative); an int must lie in `[0, dataset_size]`. -/
def split_dataset (st : NetState) (split : SplitArg) : NetState × Option String :=
  if st.dataset_size = 0 then (st, some "no dataset loaded")
  else
    match split with
    | .flt q =>
      if ¬ (0 ≤ q ∧ q ≤ 1) then (st, some "split is not in the range 0-1")
      else applySplit st (Int.toNat ⌊(st.dataset_size : ℚ) * q⌋)
    | .int n =>
      if ¬ (0 ≤ n ∧ n ≤ (st.dataset_size : Int)) then
        (st, some "split out of range")
      else applySplit st n.toNat

/-- `filename[-4:] == '.npz'`. -/
def endsWithNpz (filename : String) : Bool :=
  (filename.toList.reverse.take 4).reverse = ".npz".toList

/-- `Network.load_dataset(filename)`.  The external `np.load` collaborator is
modelled by passing the archive's `data` and `labels` arrays as arguments.
Assignments made inside the `try:` block before an exception persist, and any
exception raised inside it is rewrapped as "couldn't load".  On the success
path the code splits at `self.dataset_size`, an `int`. -/
def load_dataset (st : NetState) (filename : String)
    (data labels : List (List ℚ)) : NetState × Option String :=
  if ¬ endsWithNpz filename then (st, some "filename must end in .npz")
  else
    let st1 := { st with inputs := data, labels := labels }
    if data.length ≠ labels.length then
      (st1, some ("couldn't load .npz dataset " ++ filename))
    else if data.length = 0 then
      (st1, some ("couldn't load .npz dataset " ++ filename))
    else
      let st2 := { st1 with
                   dataset_size := data.length
                   inputs_range := (listMin2 data, listMax2 data) }
      match split_dataset st2 (SplitArg.int (data.length : Int)) with
      | (st3, none) => (st3, none)
      | (st3, some _) => (st3, some ("couldn't load .npz dataset " ++ filename))

/-- `Network.rescale_inputs(old_range, new_range, new_dtype)`.  The `astype`
conversion (an elementwise function when `new_dtype` is given) is applied
BEFORE the range checks, so it persists even when a check then raises. -/
def rescale_inputs (st : NetState) (old_range new_range : ℚ × ℚ)
    (new_dtype : Option (ℚ → ℚ)) : NetState × Option String :=
  let st1 := match new_dtype with
    | some f => { st with inputs := st.inputs.map (fun row => row.map f) }
    | none => st
  if listMin2 st1.inputs < old_range.1 ∨ old_range.2 < listMax2 st1.inputs then
    (st1, some "old_range values are wrong")
  else if new_range.2 ≤ new_range.1 then
    (st1, some "new_range values are wrong")
  else
    let newInputs := rescale_numpy_array st1.inputs old_range new_range
    ({ st1 with
       inputs := newInputs
       inputs_range := (listMin2 newInputs, listMax2 newInputs) }, none)

/-- The first outgoing connection of the layer at index `i`, if any:
the step that `chain()` follows. -/
def firstSucc (net : List Layer) (i : Nat) : Option Nat :=
  match net.get? i with
  | none => none
  | some l => l.outgoing_connections.head?

/-- `k`-fold iteration of `firstSucc` starting from `i`: the node reached
after following the first outgoing connection `k` times. -/
def iterFirst (net : List Layer) : Nat → Nat → Option Nat
  | i, 0 => some i
  | i, k + 1 =>
    match firstSucc net i with
    | none => none
    | some j => iterFirst net j k

/-- `Layer.chain()`, with explicit recursion fuel standing for Python's call
stack: `[self]` when there is no outgoing connection, else `self` consed onto
the chain of the FIRST outgoing connection.  `none` models a recursion that
does not finish within the given depth (Python: unbounded recursion). -/
def chainFuel (net : List Layer) : Nat → Nat → Option (List Nat)
  | _, 0 => none
  | i, fuel + 1 =>
    match net.get? i with
    | none => none
    | some l =>
      match l.outgoing_connections with
      | [] => some [i]
      | j :: _ => (chainFuel net j fuel).map (fun c => i :: c)

/-- Every outgoing-connection index stored in `net` is a valid index of
`net`; `Network.connect` only ever stores such indices. -/
def wfNet (net : List Layer) : Prop :=
  ∀ l ∈ net, ∀ j ∈ l.outgoing_connections, j < net.length

/-! ### Helper lemmas -/

/-- `layer_dict` lookup fails exactly when no layer bears the name. -/
theorem layerIdx_eq_none {net : Network} {name : String}
    (h : ∀ l ∈ net.layers, l.name ≠ name) : net.layerIdx name = none := by
  unfold Network.layerIdx
  have : net.layers.reverse.findIdx? (fun l => l.name = name) = none := by
    rw [List.findIdx?_eq_none_iff]
    intro l hl
    simpa using h l (List.mem_reverse.mp hl)
  rw [this]

/-- `reduce(operator.mul, t)` is the product of the entries of `t`. -/
theorem reduceMul_eq_prod (t : List Int) : reduceMul t = t.prod := by
  cases t with
  | nil => simp [reduceMul]
  | cons a rest =>
    simp only [reduceMul, List.prod_cons]
    induction rest generalizing a with
    | nil => simp
    | cons b bs ih => rw [List.foldl_cons, ih, List.prod_cons, mul_assoc]

/-! ### Concrete objects used in counterexamples and witnesses -/

/-- A network state with no dataset loaded (Python: the attributes absent). -/
def stEmpty : NetState :=
  { inputs := [], labels := [], dataset_size := 0, inputs_range := (0, 0),
    split := 0, train_inputs := [], test_inputs := [],
    train_labels := [], test_labels := [] }

/-- A layer with one outgoing and no incoming connection (kind `input`) and a
positive dropout rate, as built by
`Layer("d", shape=2, dropout=0.5)` once connected forward. -/
def inputDropLayer : Layer :=
  { name := "d", shape := [2], size := 2, vshape := .tup [2],
    activation := .str "linear", dropout := 1/2,
    incoming_connections := [], outgoing_connections := [1] }

/-- The layer `Layer("input1", shape=2)` of the source's example network,
before any `connect` call. -/
def input1Layer : Layer :=
  { name := "input1", shape := [2], size := 2, vshape := .tup [2],
    activation := .str "linear", dropout := 0,
    incoming_connections := [], outgoing_connections := [] }

/-- A one-layer network holding `input1Layer`. -/
def net1 : Network := { layers := [input1Layer] }

/-! ### C3 -/

/-- C3, counterexample: an input-kind layer with `dropout = 1/2` makes
`make_keras_layers` return a non-empty descriptor list (a lone dropout
descriptor), so the sequence is NOT empty for every input-kind layer. -/
theorem make_keras_layers_input_dropout_nonempty :
    inputDropLayer.kind = "input" ∧ inputDropLayer.make_keras_layers ≠ [] := by
  refine ⟨rfl, ?_⟩
  simp only [Layer.make_keras_layers, Layer.kind, inputDropLayer]
  norm_num

/-- C3, amended: the descriptor sequence has no dense descriptor for an
input-kind layer and a single dense descriptor of the layer's size and
activation otherwise; in BOTH cases one dropout descriptor is appended
exactly when `dropout > 0` (so an input-kind layer with positive dropout
yields a lone dropout descriptor rather than an empty sequence). -/
theorem make_keras_layers_characterization (l : Layer) :
    (l.kind = "input" →
      l.make_keras_layers =
        (if 0 < l.dropout then [KerasLayer.dropout l.dropout] else [])) ∧
    (l.kind ≠ "input" →
      l.make_keras_layers =
        KerasLayer.dense l.size l.activation ::
          (if 0 < l.dropout then [KerasLayer.dropout l.dropout] else [])) := by
  constructor
  · intro h
    simp only [Layer.make_keras_layers, h, if_pos rfl]
    split <;> simp
  · intro h
    simp only [Layer.make_keras_layers, if_neg h]
    split <;> simp

/-- C3, witness for the amended theorem at the concrete input-kind layer with
positive dropout. -/
theorem make_keras_layers_characterization_witness :
    inputDropLayer.make_keras_layers =
      (if 0 < inputDropLayer.dropout then
        [KerasLayer.dropout inputDropLayer.dropout] else []) :=
  (make_keras_layers_characterization inputDropLayer).1 (by rfl)

/-! ### C4 -/

/-- C4, counterexample: indexing a concrete one-layer network with the
unknown name `"missing"` does not raise anything — `__getitem__` returns
Python `None` (embedded: `none`), a normal value, not a `LookupError`. -/
theorem getitem_missing_returns_none_concrete :
    net1.getitem "missing" = none := by decide

/-- C4, amended: for every string that is not the name of one of the
network's layers, indexing the network returns `None` (no exception is
raised; `__getitem__` has an explicit `return None` branch). -/
theorem getitem_missing_returns_none (net : Network) (name : String)
    (h : ∀ l ∈ net.layers, l.name ≠ name) : net.getitem name = none := by
  unfold Network.getitem
  rw [layerIdx_eq_none h]

/-- C4, witness: the amended theorem applied to the concrete one-layer
network and the absent name `"missing"`. -/
theorem getitem_missing_returns_none_witness :
    net1.getitem "missing" = (none : Option Layer) :=
  getitem_missing_returns_none net1 "missing" (by decide)

/-! ### C5 -/

/-- C5: when at least one of the two names is not in `layer_dict`,
`connect` raises (`some` error) and the network — in particular every
layer's `incoming_connections` and `outgoing_connections` — is unchanged:
both name checks precede both mutations. -/
theorem connect_unknown_name_leaves_net_unchanged (net : Network)
    (from_name to_name : String)
    (h : (∀ l ∈ net.layers, l.name ≠ from_name) ∨
         (∀ l ∈ net.layers, l.name ≠ to_name)) :
    (net.connect from_name to_name).1 = net ∧
    (net.connect from_name to_name).2.isSome := by
  rcases h with h | h
  · unfold Network.connect
    rw [layerIdx_eq_none h]
    exact ⟨rfl, rfl⟩
  · unfold Network.connect
    rcases hf : net.layerIdx from_name with _ | fi
    · exact ⟨rfl, rfl⟩
    · rw [layerIdx_eq_none h]
      exact ⟨rfl, rfl⟩

/-- C5, witness: connecting `"input1"` to the absent name `"missing"` on the
concrete one-layer network fails and leaves the network unchanged. -/
theorem connect_unknown_name_leaves_net_unchanged_witness :
    (net1.connect "input1" "missing").1 = net1 ∧
    (net1.connect "input1" "missing").2.isSome :=
  connect_unknown_name_leaves_net_unchanged net1 "input1" "missing"
    (Or.inr (by decide))

/-! ### C6 and C9: successful `Layer.__init__` -/

/-- Elimination for a successful `Layer.__init__`: the stored `shape` and
`size` come from `shapeList`/`shapeSize`, and the stored `vshape` is the
successful result of the `vshape` block. -/
theorem layerInit_ok {name : String} {shape : PyShape} {p : LayerParams}
    {l : Layer} (h : layerInit name shape p = Except.ok l) :
    l.shape = shapeList shape ∧ l.size = shapeSize shape ∧
    computeVShape (shapeSize shape) (shapeList shape) p.vshape
      = Except.ok l.vshape := by
  by_cases h1 : 0 < name.length
  case neg => simp [layerInit, h1] at h
  by_cases h2 : valid_shape shape
  case neg => simp [layerInit, h1, h2] at h
  rcases hv : computeVShape (shapeSize shape) (shapeList shape) p.vshape
    with e | vs
  · simp [layerInit, h1, h2, hv] at h
  rcases ha : computeActivation p.activation with e | act
  · simp [layerInit, h1, h2, hv, ha] at h
  rcases hd : computeDropout p.dropout with e | dr
  · simp [layerInit, h1, h2, hv, ha, hd] at h
  simp [layerInit, h1, h2, hv, ha, hd] at h
  subst h
  exact ⟨rfl, rfl, rfl⟩

/-- C6: for every validly constructed layer, `size` is the product of the
dimensions of the stored `shape`, and a single-`int` shape `n` is stored as
the one-element shape `(n,)` with that same size. -/
theorem layer_size_eq_prod_of_shape (name : String) (shape : PyShape)
    (p : LayerParams) (l : Layer) (h : layerInit name shape p = Except.ok l) :
    l.size = l.shape.prod ∧
    (∀ n, shape = PyShape.int n → l.shape = [n] ∧ l.size = n) := by
  obtain ⟨hs, hz, -⟩ := layerInit_ok h
  constructor
  · rw [hs, hz]
    cases shape with
    | int n => simp [shapeList, shapeSize, reduceMul]
    | tup t => simp [shapeList, shapeSize, reduceMul_eq_prod]
  · intro n hn
    subst hn
    exact ⟨hs, by rw [hz]; rfl⟩

/-- The layer produced by `Layer("a", shape=3)`. -/
def lA3 : Layer :=
  { name := "a", shape := [3], size := 3, vshape := .tup [3],
    activation := .str "linear", dropout := 0,
    incoming_connections := [], outgoing_connections := [] }

/-- C6, witness: `Layer("a", shape=3)` succeeds with `shape = (3,)` and
`size = 3 = product(shape)`. -/
theorem layer_size_eq_prod_of_shape_witness :
    lA3.size = lA3.shape.prod ∧
    (∀ n, PyShape.int 3 = PyShape.int n → lA3.shape = [n] ∧ lA3.size = n) :=
  layer_size_eq_prod_of_shape "a" (PyShape.int 3) {} lA3 (by rfl)

/-- A successful `vshape` block yields a display shape whose entry product is
`size`, given that the stored shape's entry product is `size`. -/
theorem computeVShape_ok_prod {size : Int} {shp : List Int}
    {pv : Option PyShape} {vs : PyShape}
    (h : computeVShape size shp pv = Except.ok vs)
    (hs : reduceMul shp = size) : prodPyShape vs = size := by
  cases pv with
  | none =>
    by_cases hl : shp.length > 2
    · simp only [computeVShape, if_pos hl, Except.ok.injEq] at h
      subst h
      simp [prodPyShape, reduceMul]
    · simp only [computeVShape, if_neg hl, Except.ok.injEq] at h
      subst h
      simpa [prodPyShape] using hs
  | some v =>
    by_cases hvalid : valid_vshape v
    case neg => simp [computeVShape, hvalid] at h
    cases v with
    | int w =>
      by_cases hw : w = size
      · subst hw
        simp [computeVShape, hvalid] at h
        subst h
        simp [prodPyShape]
      · simp [computeVShape, hvalid, hw] at h
    | tup t =>
      have hlen : t.length = 2 := by
        have hv2 := hvalid
        unfold valid_vshape at hv2
        simp only [Bool.and_eq_true, decide_eq_true_eq] at hv2
        exact hv2.2
      obtain ⟨a, b, rfl⟩ := List.length_eq_two.mp hlen
      by_cases hab : a * b = size
      · simp [computeVShape, hvalid, List.getD, hab] at h
        subst h
        simpa [prodPyShape, reduceMul] using hab
      · simp [computeVShape, hvalid, List.getD, hab] at h

/-- C9: every successfully constructed layer has a display shape (`vshape`)
whose dimension product equals `size`, across all four construction cases
(explicit int, explicit 2-tuple, default for shape of ≤ 2 dimensions,
default `(size,)` for more dimensions). -/
theorem layer_vshape_prod_eq_size (name : String) (shape : PyShape)
    (p : LayerParams) (l : Layer) (h : layerInit name shape p = Except.ok l) :
    prodPyShape l.vshape = l.size := by
  obtain ⟨hs, hz, hv⟩ := layerInit_ok h
  have hprod : reduceMul (shapeList shape) = shapeSize shape := by
    cases shape <;> simp [shapeList, shapeSize, reduceMul]
  rw [hz]
  exact computeVShape_ok_prod hv hprod

/-- The layer produced by
`Layer("b", shape=(2,3), vshape=(3,2))`. -/
def lB : Layer :=
  { name := "b", shape := [2, 3], size := 6, vshape := .tup [3, 2],
    activation := .str "linear", dropout := 0,
    incoming_connections := [], outgoing_connections := [] }

/-- C9, witness: `Layer("b", shape=(2,3), vshape=(3,2))` succeeds and its
display shape's product `3 * 2` equals its size `6`. -/
theorem layer_vshape_prod_eq_size_witness : prodPyShape lB.vshape = lB.size :=
  layer_vshape_prod_eq_size "b" (PyShape.tup [2, 3])
    { vshape := some (.tup [3, 2]) } lB (by rfl)

/-! ### C7 -/

/-- A valid `split` argument in the sense of the claim: a float in `[0,1]` or
an int in `[0, dataset_size]`. -/
def validSplitArg (st : NetState) : SplitArg → Bool
  | .flt q => decide (0 ≤ q ∧ q ≤ 1)
  | .int n => decide (0 ≤ n ∧ n ≤ (st.dataset_size : Int))

/-- C7: with a loaded dataset (`dataset_size ≠ 0`) and a valid split
argument, `split_dataset` succeeds and the concatenation of the train and
test partitions (inputs, and likewise labels) reproduces the full arrays. -/
theorem split_dataset_concat_roundtrip (st : NetState) (s : SplitArg)
    (h0 : st.dataset_size ≠ 0) (hv : validSplitArg st s = true) :
    (split_dataset st s).2 = none ∧
    (split_dataset st s).1.train_inputs ++ (split_dataset st s).1.test_inputs
      = st.inputs ∧
    (split_dataset st s).1.train_labels ++ (split_dataset st s).1.test_labels
      = st.labels := by
  cases s with
  | flt q =>
    have hq : 0 ≤ q ∧ q ≤ 1 := by simpa [validSplitArg] using hv
    simp [split_dataset, h0, hq, applySplit, List.take_append_drop]
  | int n =>
    have hn : 0 ≤ n ∧ n ≤ (st.dataset_size : Int) := by
      simpa [validSplitArg] using hv
    simp [split_dataset, h0, hn, applySplit, List.take_append_drop]

/-- A loaded three-element dataset (as `split_dataset` would see it). -/
def stSplitEx : NetState :=
  { inputs := [[1], [2], [3]], labels := [[4], [5], [6]], dataset_size := 3,
    inputs_range := (1, 3), split := 3, train_inputs := [[1], [2], [3]],
    test_inputs := [], train_labels := [[4], [5], [6]], test_labels := [] }

/-- C7, witness: splitting the concrete three-element dataset at the
absolute count `2` succeeds and concatenating train and test reproduces the
inputs and labels. -/
theorem split_dataset_concat_roundtrip_witness :
    (split_dataset stSplitEx (.int 2)).2 = none ∧
    (split_dataset stSplitEx (.int 2)).1.train_inputs ++
      (split_dataset stSplitEx (.int 2)).1.test_inputs
      = stSplitEx.inputs ∧
    (split_dataset stSplitEx (.int 2)).1.train_labels ++
      (split_dataset stSplitEx (.int 2)).1.test_labels
      = stSplitEx.labels :=
  split_dataset_concat_roundtrip stSplitEx (.int 2) (by decide) (by decide)

/-! ### C1 -/

/-- `split_dataset` with a valid in-range `int` argument reduces to the
slicing tail `applySplit`. -/
theorem split_dataset_int (st : NetState) (n : Nat) (h0 : st.dataset_size ≠ 0)
    (hn : n ≤ st.dataset_size) :
    split_dataset st (.int (n : Int)) = applySplit st n := by
  unfold split_dataset
  rw [if_neg h0]
  dsimp only
  rw [if_neg (not_not_intro
    ⟨Int.natCast_nonneg n, by exact_mod_cast hn⟩), Int.toNat_natCast]

/-- The full network state produced by a successful `load_dataset` call:
every dataset field is overwritten, and the final split places ALL rows in
the train partition and none in the test partition. -/
theorem load_dataset_success_eq (st : NetState) (filename : String)
    (data labels : List (List ℚ))
    (hfn : endsWithNpz filename = true)
    (hlen : data.length = labels.length) (hne : data ≠ []) :
    load_dataset st filename data labels =
      ({ inputs := data, labels := labels, dataset_size := data.length,
         inputs_range := (listMin2 data, listMax2 data), split := data.length,
         train_inputs := data, test_inputs := [],
         train_labels := labels, test_labels := [] }, none) := by
  have hlen0 : data.length ≠ 0 := by simpa using hne
  have htl : labels.take data.length = labels := by
    rw [hlen]; exact labels.take_length
  have hdl : labels.drop data.length = [] := by
    rw [hlen]; exact labels.drop_length
  have hsp := split_dataset_int
    { inputs := data, labels := labels, dataset_size := data.length,
      inputs_range := (listMin2 data, listMax2 data), split := st.split,
      train_inputs := st.train_inputs, test_inputs := st.test_inputs,
      train_labels := st.train_labels, test_labels := st.test_labels }
    data.length hlen0 (le_refl _)
  unfold load_dataset
  rw [if_neg (by simp [hfn]), if_neg (not_not_intro hlen), if_neg hlen0]
  dsimp only
  rw [hsp]
  unfold applySplit
  simp [List.take_length, List.drop_length, htl, hdl]

/-- C1, witness for the amended theorem: loading a concrete two-row archive
succeeds, sets `dataset_size = 2` and `inputs_range = (0, 1)`, and puts both
rows in the train partition and none in the test partition. -/
theorem load_dataset_success_eq_witness :
    load_dataset stEmpty "d.npz" [[0], [1]] [[5], [6]] =
      ({ inputs := [[0], [1]], labels := [[5], [6]], dataset_size := 2,
         inputs_range := (listMin2 [[0], [1]], listMax2 [[0], [1]]),
         split := 2, train_inputs := [[0], [1]], test_inputs := [],
         train_labels := [[5], [6]], test_labels := [] }, none) :=
  load_dataset_success_eq stEmpty "d.npz" [[0], [1]] [[5], [6]]
    (by decide) (by decide) (by decide)

/-- C1, counterexample to the 50/50 part of the claim: a successful load of
a two-row archive yields 2 train rows and 0 test rows, not the 1 and 1 of an
even split — `load_dataset` passes `self.dataset_size` (an int), not the
method's default `0.50`, to `split_dataset`. -/
theorem load_dataset_not_fifty_fifty :
    (load_dataset stEmpty "d.npz" [[0], [1]] [[5], [6]]).2 = none ∧
    (load_dataset stEmpty "d.npz" [[0], [1]] [[5], [6]]).1.dataset_size = 2 ∧
    (load_dataset stEmpty "d.npz" [[0], [1]] [[5], [6]]).1.train_inputs.length
      = 2 ∧
    ¬ ((load_dataset stEmpty "d.npz" [[0], [1]] [[5], [6]]).1.train_inputs.length
        = 1 ∧
       (load_dataset stEmpty "d.npz" [[0], [1]] [[5], [6]]).1.test_inputs.length
        = 1) := by
  refine ⟨rfl, rfl, rfl, ?_⟩
  rintro ⟨h1, -⟩
  exact absurd h1 (by decide)

/-! ### C2 -/

/-- The elementwise conversion `astype(int)` performs on a nonnegative float
array: truncation to the integer part (floor, for nonnegative values). -/
def ratFloorFn (q : ℚ) : ℚ := (⌊q⌋ : ℚ)

/-- A loaded one-row dataset whose single value is `1/2`. -/
def stHalf : NetState :=
  { inputs := [[1/2]], labels := [[0]], dataset_size := 1,
    inputs_range := (0, 1), split := 1, train_inputs := [[1/2]],
    test_inputs := [], train_labels := [[0]], test_labels := [] }

/-- C2, counterexample: `rescale_inputs((0,1), (1,0), new_dtype=int)` on
inputs `[[0.5]]` fails (the new range is inverted), yet the inputs array is
left as `[[0]]`, not the original `[[0.5]]`: the `astype` conversion runs
before the range checks and survives the raise. -/
theorem rescale_inputs_fail_dtype_mutates :
    (rescale_inputs stHalf (0, 1) (1, 0) (some ratFloorFn)).2.isSome ∧
    (rescale_inputs stHalf (0, 1) (1, 0) (some ratFloorFn)).1.inputs
      ≠ stHalf.inputs := by
  have hfl : ratFloorFn (2⁻¹ : ℚ) = 0 := by unfold ratFloorFn; norm_num
  have hmap : stHalf.inputs.map (fun row => row.map ratFloorFn) = [[0]] := by
    simp [stHalf, hfl]
  constructor
  · unfold rescale_inputs
    dsimp only
    rw [hmap]
    norm_num [listMin2, listMax2, listMin, listMax]
  · unfold rescale_inputs
    dsimp only
    rw [hmap]
    norm_num [listMin2, listMax2, listMin, listMax, stHalf]

/-- C2, amended: a failing `rescale_inputs` call always leaves
`inputs_range` unchanged, and leaves the `inputs` array (values and element
type) unchanged when `new_dtype` is not given; when `new_dtype` is given,
the `astype` conversion is applied before the checks and persists even
though the call fails. -/
theorem rescale_inputs_fail_preserves (st : NetState)
    (old_range new_range : ℚ × ℚ) (new_dtype : Option (ℚ → ℚ))
    (h : (rescale_inputs st old_range new_range new_dtype).2.isSome) :
    (rescale_inputs st old_range new_range new_dtype).1.inputs_range
      = st.inputs_range ∧
    (new_dtype = none →
      (rescale_inputs st old_range new_range new_dtype).1 = st) := by
  cases new_dtype with
  | none =>
    by_cases c1 : listMin2 st.inputs < old_range.1 ∨
        old_range.2 < listMax2 st.inputs
    · exact ⟨by simp [rescale_inputs, c1], fun _ => by simp [rescale_inputs, c1]⟩
    · by_cases c2 : new_range.2 ≤ new_range.1
      · exact ⟨by simp [rescale_inputs, c1, c2],
               fun _ => by simp [rescale_inputs, c1, c2]⟩
      · exfalso
        simp [rescale_inputs, c1, c2] at h
  | some f =>
    by_cases c1 : listMin2 (st.inputs.map (fun row => row.map f))
        < old_range.1 ∨
        old_range.2 < listMax2 (st.inputs.map (fun row => row.map f))
    · exact ⟨by simp [rescale_inputs, c1], fun heq => by simp at heq⟩
    · by_cases c2 : new_range.2 ≤ new_range.1
      · exact ⟨by simp [rescale_inputs, c1, c2], fun heq => by simp at heq⟩
      · exfalso
        simp [rescale_inputs, c1, c2] at h

/-- A loaded one-row dataset whose single value is `0`. -/
def stZero : NetState :=
  { inputs := [[0]], labels := [[0]], dataset_size := 1,
    inputs_range := (0, 0), split := 1, train_inputs := [[0]],
    test_inputs := [], train_labels := [[0]], test_labels := [] }

/-- C2, witness: a failing call (inverted new range) without `new_dtype`
leaves the concrete state exactly as it was. -/
theorem rescale_inputs_fail_preserves_witness :
    (rescale_inputs stZero (0, 0) (1, 0) none).1.inputs_range
      = stZero.inputs_range ∧
    ((none : Option (ℚ → ℚ)) = none →
      (rescale_inputs stZero (0, 0) (1, 0) none).1 = stZero) :=
  rescale_inputs_fail_preserves stZero (0, 0) (1, 0) none
    (by simp [rescale_inputs, listMin2, listMax2, listMin, listMax, stZero])

/-! ### C8 and C10: `Layer.chain()` -/

/-- Zero iterations stay at the start node. -/
theorem iterFirst_zero (net : List Layer) (i : Nat) :
    iterFirst net i 0 = some i := rfl

/-- Unfolding one iteration at the front. -/
theorem iterFirst_succ (net : List Layer) (i k : Nat) :
    iterFirst net i (k + 1) =
      match firstSucc net i with
      | none => none
      | some j => iterFirst net j k := rfl

/-- Unfolding one iteration at the back. -/
theorem iterFirst_succ_right (net : List Layer) (i k : Nat) :
    iterFirst net i (k + 1) = (iterFirst net i k).bind (firstSucc net) := by
  induction k generalizing i with
  | zero =>
    rw [iterFirst_succ]
    cases h : firstSucc net i <;> simp [h, iterFirst]
  | succ k ih =>
    rw [iterFirst_succ]
    cases h : firstSucc net i with
    | none => simp [iterFirst_succ, h]
    | some j =>
      dsimp only
      rw [ih j, iterFirst_succ, h]

/-- In a well-formed net, following a first outgoing connection lands on a
valid index. -/
theorem firstSucc_lt (net : List Layer) (hwf : wfNet net) {i j : Nat}
    (h : firstSucc net i = some j) : j < net.length := by
  unfold firstSucc at h
  cases hg : net.get? i with
  | none => rw [hg] at h; simp at h
  | some l =>
    rw [hg] at h
    exact hwf l (List.get?_mem hg) j (List.mem_of_mem_head? h)

/-- A successful `chain()` run enumerates exactly the iterates of the
first-successor map: entry `m` of the result is the node reached after `m`
steps, and one step past the end of the result the path is over. -/
theorem chainFuel_enum (net : List Layer) :
    ∀ (fuel i : Nat) (res : List Nat), chainFuel net i fuel = some res →
      (∀ m, m < res.length → iterFirst net i m = res.get? m) ∧
      iterFirst net i res.length = none := by
  intro fuel
  induction fuel with
  | zero => intro i res h; simp [chainFuel] at h
  | succ fuel ih =>
    intro i res h
    rw [chainFuel] at h
    cases hg : net.get? i with
    | none => rw [hg] at h; simp at h
    | some l =>
      rw [hg] at h
      dsimp only at h
      cases ho : l.outgoing_connections with
      | nil =>
        rw [ho] at h
        simp only [Option.some.injEq] at h
        subst h
        have hfs : firstSucc net i = none := by
          unfold firstSucc
          rw [hg]
          dsimp only
          rw [ho]
          rfl
        constructor
        · intro m hm
          have hm0 : m = 0 := by simpa [Nat.lt_one_iff] using hm
          subst hm0
          rfl
        · rw [List.length_singleton, iterFirst_succ, hfs]
      | cons j rest =>
        rw [ho] at h
        dsimp only at h
        cases hc : chainFuel net j fuel with
        | none => rw [hc] at h; simp at h
        | some c =>
          rw [hc] at h
          simp only [Option.map_some', Option.some.injEq] at h
          subst h
          obtain ⟨e1, e2⟩ := ih j c hc
          have hfs : firstSucc net i = some j := by
            unfold firstSucc
            rw [hg]
            dsimp only
            rw [ho]
            rfl
          constructor
          · intro m hm
            cases m with
            | zero => rfl
            | succ m =>
              rw [iterFirst_succ, hfs]
              dsimp only
              have hm' : m < c.length := by simpa using hm
              rw [e1 m hm']
              rfl
          · rw [List.length_cons, iterFirst_succ, hfs]
            exact e2

/-- In a well-formed net, an acyclic first-branch path from a valid start
node must reach a terminal node (one with no outgoing connection) within
`net.length` steps: otherwise `net.length + 1` pairwise-distinct nodes would
all be valid indices of `net`. -/
theorem exists_terminal (net : List Layer) (i : Nat)
    (hwf : wfNet net) (hi : i < net.length)
    (hacyc : ∀ k1 k2 : Fin (net.length + 1), k1.val < k2.val →
      (iterFirst net i k1.val).isSome →
      iterFirst net i k1.val ≠ iterFirst net i k2.val) :
    ∃ k ≤ net.length, ∃ v, iterFirst net i k = some v ∧
      firstSucc net v = none := by
  by_contra hno
  push_neg at hno
  have hdef : ∀ k, k ≤ net.length →
      ∃ v, iterFirst net i k = some v ∧ v < net.length := by
    intro k
    induction k with
    | zero => intro _; exact ⟨i, rfl, hi⟩
    | succ k ihk =>
      intro hk
      have hk' : k ≤ net.length := Nat.le_of_succ_le hk
      obtain ⟨v, hv, hvlt⟩ := ihk hk'
      have hfs := hno k hk' v hv
      cases hfsv : firstSucc net v with
      | none => exact absurd hfsv hfs
      | some j =>
        refine ⟨j, ?_, firstSucc_lt net hwf hfsv⟩
        rw [iterFirst_succ_right, hv]
        simp [hfsv]
  have hchoice : ∀ k : Fin (net.length + 1),
      ∃ v, iterFirst net i k.val = some v ∧ v < net.length :=
    fun k => hdef k.val (Nat.lt_succ_iff.mp k.isLt)
  choose f hf1 hf2 using hchoice
  obtain ⟨k1, k2, hne, heq⟩ :=
    Fintype.exists_ne_map_eq_of_card_lt
      (fun k : Fin (net.length + 1) => (⟨f k, hf2 k⟩ : Fin net.length))
      (by simp)
  have hfeq : f k1 = f k2 := congrArg Fin.val heq
  have hvne : k1.val ≠ k2.val := fun hc => hne (Fin.ext hc)
  rcases hvne.lt_or_lt with hlt | hlt
  · exact hacyc k1 k2 hlt (by rw [hf1 k1]; rfl)
      (by rw [hf1 k1, hf1 k2, hfeq])
  · exact hacyc k2 k1 hlt (by rw [hf1 k2]; rfl)
      (by rw [hf1 k1, hf1 k2, hfeq])

/-- If the first-branch path from `i` reaches a terminal node in `k` steps,
then `chain()` returns with any recursion budget exceeding `k`. -/
theorem chainFuel_total_of_terminal (net : List Layer) (hwf : wfNet net) :
    ∀ (k i fuel v : Nat), k < fuel → i < net.length →
      iterFirst net i k = some v → firstSucc net v = none →
      ∃ res, chainFuel net i fuel = some res := by
  intro k
  induction k with
  | zero =>
    intro i fuel v hf hi hv hterm
    obtain rfl : i = v := by simpa [iterFirst] using hv
    obtain ⟨f', rfl⟩ : ∃ f', fuel = f' + 1 := ⟨fuel - 1, by omega⟩
    cases hg : net.get? i with
    | none =>
      have := List.get?_eq_none.mp hg
      omega
    | some l =>
      unfold firstSucc at hterm
      rw [hg] at hterm
      have ho : l.outgoing_connections = [] := by simpa using hterm
      refine ⟨[i], ?_⟩
      rw [chainFuel, hg]
      dsimp only
      rw [ho]
  | succ k ihk =>
    intro i fuel v hf hi hv hterm
    rw [iterFirst_succ] at hv
    cases hfs : firstSucc net i with
    | none => rw [hfs] at hv; simp at hv
    | some j =>
      rw [hfs] at hv
      obtain ⟨f', rfl⟩ : ∃ f', fuel = f' + 1 := ⟨fuel - 1, by omega⟩
      obtain ⟨res, hres⟩ :=
        ihk j f' v (by omega) (firstSucc_lt net hwf hfs) hv hterm
      cases hg : net.get? i with
      | none =>
        have := List.get?_eq_none.mp hg
        omega
      | some l =>
        unfold firstSucc at hfs
        rw [hg] at hfs
        dsimp only at hfs
        cases ho : l.outgoing_connections with
        | nil => rw [ho] at hfs; simp at hfs
        | cons j' rest =>
          rw [ho] at hfs
          simp only [List.head?_cons, Option.some.injEq] at hfs
          subst hfs
          refine ⟨i :: res, ?_⟩
          rw [chainFuel, hg]
          dsimp only
          rw [ho]
          dsimp only
          rw [hres]
          rfl

/-- A layer whose only outgoing connection is itself
(`net.connect("loop", "loop")` on a one-layer network). -/
def cycLayer : Layer :=
  { name := "loop", shape := [1], size := 1, vshape := .tup [1],
    activation := .str "linear", dropout := 0,
    incoming_connections := [0], outgoing_connections := [0] }

/-- The one-layer self-loop network. -/
def cycNet : List Layer := [cycLayer]

/-- C8: `chain()` returns `[self]` when the layer has no outgoing
connection; otherwise it returns `self` consed onto the chain of the FIRST
outgoing connection; consequently every layer in the result lies on the
first-successor path from the start (layers reachable only through a second
or later outgoing connection never appear). -/
theorem chain_follows_first_outgoing (net : List Layer) (i : Nat) (l : Layer)
    (fuel : Nat) (hg : net.get? i = some l) :
    (l.outgoing_connections = [] → chainFuel net i (fuel + 1) = some [i]) ∧
    (∀ j rest, l.outgoing_connections = j :: rest →
      chainFuel net i (fuel + 1)
        = (chainFuel net j fuel).map (fun c => i :: c)) ∧
    (∀ res, chainFuel net i fuel = some res →
      ∀ m ∈ res, ∃ k, iterFirst net i k = some m) := by
  refine ⟨?_, ?_, ?_⟩
  · intro ho
    rw [chainFuel, hg]
    dsimp only
    rw [ho]
  · intro j rest ho
    rw [chainFuel, hg]
    dsimp only
    rw [ho]
  · intro res hres m hm
    obtain ⟨e1, -⟩ := chainFuel_enum net fuel i res hres
    obtain ⟨idx, hidx⟩ := List.mem_iff_get?.mp hm
    have hlt : idx < res.length := (List.get?_eq_some.mp hidx).1
    exact ⟨idx, by rw [e1 idx hlt, hidx]⟩

/-- `Layer("a", ...)` with TWO outgoing connections (indices 1 and 2). -/
def lBr0 : Layer :=
  { name := "a", shape := [1], size := 1, vshape := .tup [1],
    activation := .str "linear", dropout := 0,
    incoming_connections := [], outgoing_connections := [1, 2] }

/-- `Layer("b", ...)`, reached through the first branch. -/
def lBr1 : Layer :=
  { name := "b", shape := [1], size := 1, vshape := .tup [1],
    activation := .str "linear", dropout := 0,
    incoming_connections := [0], outgoing_connections := [] }

/-- `Layer("c", ...)`, reachable only through the second branch. -/
def lBr2 : Layer :=
  { name := "c", shape := [1], size := 1, vshape := .tup [1],
    activation := .str "linear", dropout := 0,
    incoming_connections := [0], outgoing_connections := [] }

/-- A three-layer network where layer 0 branches to layers 1 and 2. -/
def branchNet : List Layer := [lBr0, lBr1, lBr2]

/-- C8, witness: on the concrete branching network, `chain()` from layer 0
recurses into the FIRST outgoing connection (layer 1) only. -/
theorem chain_follows_first_outgoing_witness :
    chainFuel branchNet 0 2
      = (chainFuel branchNet 1 1).map (fun c => 0 :: c) :=
  (chain_follows_first_outgoing branchNet 0 lBr0 1 rfl).2.1 1 [2] rfl

/-- C10: (a) on a well-formed net, when repeatedly following the first
outgoing connection never revisits a node (within the only relevant horizon,
`net.length` steps), `chain()` terminates — a budget of `net.length + 1`
frames suffices — and the returned sequence enumerates the whole
first-branch path, its length being that path's length; (b) without the
acyclicity precondition `chain()` is not total: on the self-loop network no
recursion budget whatsoever makes it return. -/
theorem chain_terminates_iff_first_path_acyclic :
    (∀ (net : List Layer) (i : Nat), wfNet net → i < net.length →
      (∀ k1 k2 : Fin (net.length + 1), k1.val < k2.val →
        (iterFirst net i k1.val).isSome →
        iterFirst net i k1.val ≠ iterFirst net i k2.val) →
      ∃ res, chainFuel net i (net.length + 1) = some res ∧
        (∀ m, m < res.length → iterFirst net i m = res.get? m) ∧
        iterFirst net i res.length = none) ∧
    (∀ fuel, chainFuel cycNet 0 fuel = none) := by
  constructor
  · intro net i hwf hi hacyc
    obtain ⟨k, hk, v, hv, hterm⟩ := exists_terminal net i hwf hi hacyc
    obtain ⟨res, hres⟩ := chainFuel_total_of_terminal net hwf k i
      (net.length + 1) v (by omega) hi hv hterm
    obtain ⟨e1, e2⟩ := chainFuel_enum net (net.length + 1) i res hres
    exact ⟨res, hres, e1, e2⟩
  · intro fuel
    induction fuel with
    | zero => rfl
    | succ f ih =>
      have hstep : chainFuel cycNet 0 (f + 1)
          = (chainFuel cycNet 0 f).map (fun c => 0 :: c) := by
        rw [chainFuel]
        rfl
      rw [hstep, ih]
      rfl

/-- C10, witness: the concrete branching network is well formed and its
first-branch path from layer 0 is acyclic, so `chain()` terminates there
with the enumerated path. -/
theorem chain_terminates_iff_first_path_acyclic_witness :
    ∃ res, chainFuel branchNet 0 (branchNet.length + 1) = some res ∧
      (∀ m, m < res.length → iterFirst branchNet 0 m = res.get? m) ∧
      iterFirst branchNet 0 res.length = none :=
  chain_terminates_iff_first_path_acyclic.1 branchNet 0
    (by
      intro l hl j hj
      simp only [branchNet, List.mem_cons, List.not_mem_nil, or_false] at hl
      rcases hl with rfl | rfl | rfl <;>
        simp_all [lBr0, lBr1, lBr2, branchNet]
      omega)
    (by decide)
    (by decide)

end Konx
